import Mathlib

/-!
# Verification of the `nuts` dispatch core

Shallow embedding of `src/nut.rs` and `src/nut/activity.rs` of the `nuts`
publish/subscribe engine, together with proofs about the embedded operations.

Modelling conventions:
* Activity payloads (`Box<dyn Any>`) and handlers (boxed closures) are opaque to
  the engine, so they are modelled by type parameters `α` and `η`; witnesses
  instantiate them with `Nat`.
* A Rust operation that can panic is embedded as an `Option`-returning function;
  `none` models the panic.
* `std::collections::HashMap` is modelled as an association list with distinct
  keys; since the iteration order of `HashMap::values()` is unspecified, any
  enumeration of the stored values is a permutation of the per-key value lists,
  and iteration-order-dependent results are parameterised by the key
  enumeration order (`iterIn`), constrained to be a permutation of the keys.
* `RefCell` exclusive-borrow state is modelled by explicit `Bool` flags on the
  engine state (`executing`, `managedStateBorrowed`, `activitiesBorrowed`).
-/

/-- `DomainId` is a small integer identifier for a domain
(derived from the consumer `DomainEnumeration`). -/
abbrev DomainId := Nat

/-- `TypeId` of a Rust type; opaque token modelled as `Nat`. -/
abbrev RustTypeId := Nat

/-- `ActivityId<A>` from `src/nut/activity.rs`: a slot index plus the domain
index. The `PhantomData<A>` type tag exists only at compile time and has no
runtime content, so it is dropped in the embedding. -/
structure ActivityId where
  index : Nat
  domain_index : DomainId
deriving DecidableEq, Repr

/-- `UncheckedActivityId`: an `ActivityId` with the compile-time type tag
erased (produced by `id.into()` in `src/nut.rs`). -/
structure UncheckedActivityId where
  index : Nat
deriving DecidableEq, Repr

def ActivityId.new (index : Nat) (domain_index : DomainId) : ActivityId :=
  { index := index, domain_index := domain_index }

/-- Type-tag erasure `ActivityId<A> -> UncheckedActivityId` used by
`id.into()` in `src/nut.rs`. -/
def ActivityId.into (id : ActivityId) : UncheckedActivityId :=
  { index := id.index }

/-- `ActivityContainer` from `src/nut/activity.rs`:
`data: Vec<Option<Box<dyn Any>>>` and `active: Vec<bool>`.
Payloads are opaque (`α`). -/
structure ActivityContainer (α : Type) where
  data : List (Option α)
  active : List Bool
deriving DecidableEq, Repr

def ActivityContainer.empty {α : Type} : ActivityContainer α :=
  { data := [], active := [] }

/-- `ActivityContainer::add`: reads `i = self.data.len()`, pushes
`Some(Box::new(a))` onto `data` and `start_active` onto `active`, and returns
`ActivityId::new(i, domain)`. -/
def ActivityContainer.add {α : Type} (c : ActivityContainer α) (a : α)
    (domain : DomainId) (start_active : Bool) : ActivityContainer α × ActivityId :=
  let i := c.data.length
  ({ data := c.data ++ [some a], active := c.active ++ [start_active] },
   ActivityId.new i domain)

/-- `ActivityContainer::is_active`: `self.active[id.index]` — unguarded `Vec`
indexing; `none` models the out-of-bounds panic. -/
def ActivityContainer.is_active {α : Type} (c : ActivityContainer α)
    (id : ActivityId) : Option Bool :=
  c.active[id.index]?

/-- `ActivityContainer::set_active`: `self.active[id.index] = active` —
unguarded `Vec` indexing; `none` models the out-of-bounds panic. -/
def ActivityContainer.set_active {α : Type} (c : ActivityContainer α)
    (id : ActivityId) (active : Bool) : Option (ActivityContainer α) :=
  if id.index < c.active.length then
    some { c with active := c.active.set id.index active }
  else
    none

/-- `Index<ActivityId<A>> for ActivityContainer`:
`self.data[id.index].as_ref().expect("Missing activity")` — `none` models both
the out-of-bounds panic of `self.data[id.index]` and the
`expect("Missing activity")` panic on an empty (`None`) slot. -/
def ActivityContainer.get {α : Type} (c : ActivityContainer α)
    (id : ActivityId) : Option α :=
  match c.data[id.index]? with
  | some (some a) => some a
  | some none => none
  | none => none

/-- `ActivityHandlerContainer` from `src/nut/activity.rs`:
`data: HashMap<usize, Vec<Handler>>`, modelled as an association list with
distinct keys (handlers are opaque `η`). -/
structure ActivityHandlerContainer (η : Type) where
  data : List (Nat × List η)
deriving DecidableEq, Repr

def ActivityHandlerContainer.empty {η : Type} : ActivityHandlerContainer η :=
  { data := [] }

/-- The keys currently stored in the map. -/
def ActivityHandlerContainer.keys {η : Type} (c : ActivityHandlerContainer η) :
    List Nat :=
  c.data.map Prod.fst

/-- `HashMap::get(&k)`: lookup of the handler list stored for slot `k`. -/
def ActivityHandlerContainer.lookup {η : Type} (c : ActivityHandlerContainer η)
    (k : Nat) : Option (List η) :=
  (c.data.find? (fun e => e.1 == k)).map Prod.snd

/-- `Index<ActivityId<A>> for ActivityHandlerContainer`:
`&self.data[&id.index]` — `none` models the panic when no entry exists. -/
def ActivityHandlerContainer.get {η : Type} (c : ActivityHandlerContainer η)
    (id : ActivityId) : Option (List η) :=
  c.lookup id.index

/-- `IndexMut<ActivityId<A>> for ActivityHandlerContainer`:
`self.data.entry(id.index).or_insert(Default::default())` — returns the updated
map together with the list the returned mutable reference points at. -/
def ActivityHandlerContainer.get_mut {η : Type} (c : ActivityHandlerContainer η)
    (id : ActivityId) : ActivityHandlerContainer η × List η :=
  match c.lookup id.index with
  | some l => (c, l)
  | none => ({ data := c.data ++ [(id.index, [])] }, [])

/-- Helper for `push`: append `h` to the entry for key `k` of the association
list, or insert a fresh entry when the key is absent (the association-list
rendering of `HashMap::entry(k).or_insert(default).push(h)`). -/
def pushEntry {η : Type} (k : Nat) (h : η) :
    List (Nat × List η) → List (Nat × List η)
  | [] => [(k, [h])]
  | e :: es => if e.1 == k then (e.1, e.2 ++ [h]) :: es else e :: pushEntry k h es

/-- `subs[id].push(handler)` through `IndexMut`: append `h` to the `Vec` stored
for slot `k`, inserting an empty entry first when the key is absent. -/
def ActivityHandlerContainer.push {η : Type} (c : ActivityHandlerContainer η)
    (k : Nat) (h : η) : ActivityHandlerContainer η :=
  { data := pushEntry k h c.data }

/-- `ActivityHandlerContainer::iter_for`:
`self.data.get(&id.index).into_iter().flat_map(|f| f.iter())` — empty iteration
when the key is absent. -/
def ActivityHandlerContainer.iter_for {η : Type} (c : ActivityHandlerContainer η)
    (id : ActivityId) : List η :=
  (c.lookup id.index).getD []

/-- `ActivityHandlerContainer::iter`:
`self.data.values().flat_map(|f| f.iter())`. The order in which
`HashMap::values()` yields the per-slot lists is unspecified, so the
enumeration is parameterised by the key order `ord`; an admissible `ord` is a
permutation of the stored keys (`ord.Perm c.keys`). -/
def ActivityHandlerContainer.iterIn {η : Type} (c : ActivityHandlerContainer η)
    (ord : List Nat) : List η :=
  ord.flatMap (fun k => (c.lookup k).getD [])

/-- `Topic` (from `src/nut/iac/topic.rs`, not under `src/`): either the identity
of a concrete message type, or one of the reserved lifecycle pseudo-topics
Enter and Leave. -/
inductive Topic where
  | message (tid : RustTypeId)
  | enter
  | leave
deriving DecidableEq, Repr

/-- Modelled from the spec: `DomainState`, the per-domain type-indexed storage
bag (`src/nut/iac/managed_state` is not under `src/`); at most one value of
each concrete type is present at a time. Values are opaque tokens (`Nat`)
tagged with their `TypeId`. -/
structure DomainState where
  objects : List (RustTypeId × Nat)
deriving DecidableEq, Repr

/-- Helper for `store`: overwrite the slot for `tid` in the bag's association
list, or insert a fresh slot when the type is absent. -/
def storeObject (tid : RustTypeId) (v : Nat) :
    List (RustTypeId × Nat) → List (RustTypeId × Nat)
  | [] => [(tid, v)]
  | e :: es => if e.1 == tid then (e.1, v) :: es else e :: storeObject tid v es

/-- Modelled from the spec: `store<T>(value)` inserts/overwrites the bag's slot
for type `T`. -/
def DomainState.store (d : DomainState) (tid : RustTypeId) (v : Nat) : DomainState :=
  { objects := storeObject tid v d.objects }

/-- Type-directed lookup in the bag (`read<T>()`). -/
def DomainState.read (d : DomainState) (tid : RustTypeId) : Option Nat :=
  (d.objects.find? (fun e => e.1 == tid)).map Prod.snd

/-- Modelled from the spec: `ManagedState`, the table of per-domain storage
bags, lazily allocated (`src/nut/iac/managed_state` is not under `src/`). -/
structure ManagedState where
  domains : List DomainState
deriving DecidableEq, Repr

/-- Modelled from the spec: `prepare(domain_id)` idempotently grows the table
so the domain exists with an empty bag. -/
def ManagedState.prepare (m : ManagedState) (id : DomainId) : ManagedState :=
  if id < m.domains.length then m
  else { domains := m.domains ++ List.replicate (id + 1 - m.domains.length) { objects := [] } }

/-- `get_mut(domain_id)`: the bag accessor; `none` when the domain is missing. -/
def ManagedState.get_mut (m : ManagedState) (id : DomainId) : Option DomainState :=
  m.domains[id]?

/-- Replace domain `id`'s bag (writing back through the `get_mut` reference). -/
def ManagedState.setDomain (m : ManagedState) (id : DomainId) (d : DomainState) :
    ManagedState :=
  { domains := m.domains.set id d }

/-- Modelled from the spec: `Subscriptions` (`src/nut/iac/subscription.rs` is
not under `src/`), the topic-keyed registry of `ActivityHandlerContainer`s.
The topic map is also a `HashMap`, but no claim depends on its order, so an
association list suffices. -/
structure Subscriptions (η : Type) where
  topics : List (Topic × ActivityHandlerContainer η)
deriving DecidableEq, Repr

def Subscriptions.empty {η : Type} : Subscriptions η :=
  { topics := [] }

def Subscriptions.lookup {η : Type} (s : Subscriptions η) (t : Topic) :
    Option (ActivityHandlerContainer η) :=
  (s.topics.find? (fun e => e.1 == t)).map Prod.snd

/-- Helper for `force_push_closure`: push the handler into the container stored
for topic `t`, inserting a fresh container when the topic is absent. -/
def pushTopicEntry {η : Type} (t : Topic) (k : Nat) (h : η) :
    List (Topic × ActivityHandlerContainer η) →
    List (Topic × ActivityHandlerContainer η)
  | [] => [(t, ActivityHandlerContainer.empty.push k h)]
  | e :: es => if e.1 == t then (e.1, e.2.push k h) :: es else e :: pushTopicEntry t k h es

/-- Modelled from the spec: `Subscriptions::force_push_closure` appends the
handler to the ordered list for `topic`, bound to activity `id`
(`register(topic, id, handler)` appends to that topic's list, grouped in the
per-activity `ActivityHandlerContainer` of `src/nut/activity.rs`). -/
def Subscriptions.force_push_closure {η : Type} (s : Subscriptions η) (t : Topic)
    (id : UncheckedActivityId) (h : η) : Subscriptions η :=
  { topics := pushTopicEntry t id.index h s.topics }

/-- The ordered handler list that topic `t` holds for activity slot `k`
(empty when the topic or the slot has no entry). -/
def Subscriptions.handlersFor {η : Type} (s : Subscriptions η) (t : Topic)
    (k : Nat) : List η :=
  match s.lookup t with
  | some c => (c.lookup k).getD []
  | none => []

/-- `Deferred` (from `src/nut/exec/mod.rs`, not under `src/`): the spec's
`DeferredEvent` variants — new-subscription registration, domain-state write,
and staged-activity flush — as constructed at the `src/nut.rs` call sites
(`Deferred::Subscription(topic, id.into(), closure)`,
`Deferred::DomainStore(id, TypeId::of::<T>(), Box::new(data))`,
`Deferred::FlushInchoateActivities`). -/
inductive Deferred (η : Type) where
  | Subscription (t : Topic) (id : UncheckedActivityId) (h : η)
  | DomainStore (id : DomainId) (tid : RustTypeId) (v : Nat)
  | FlushInchoateActivities
deriving DecidableEq, Repr

/-- Modelled from the spec: `InchoateActivityContainer`
(`src/nut/exec/inchoate.rs` is not under `src/`): the staging area for
activities created during a broadcast. It wraps an `ActivityContainer` and an
offset equal to the main container's length, so the ids it hands out continue
the main container's numbering (`inc_offset` keeps the offset in sync when an
activity is added to the main container directly). -/
structure InchoateActivityContainer (α : Type) where
  inner : ActivityContainer α
  offset : Nat
deriving DecidableEq, Repr

def InchoateActivityContainer.empty {α : Type} : InchoateActivityContainer α :=
  { inner := ActivityContainer.empty, offset := 0 }

/-- Modelled from the spec: `inc_offset` records that the main container grew
by one slot ("Make sure that length of activities is available without locking
activities", `src/nut.rs`). -/
def InchoateActivityContainer.inc_offset {α : Type}
    (c : InchoateActivityContainer α) : InchoateActivityContainer α :=
  { c with offset := c.offset + 1 }

/-- Modelled from the spec: adding to the staging container stores the payload
in the inner container and shifts the returned id's index by the offset, so
the id names the slot the activity will occupy in the main container after the
deferred flush. -/
def InchoateActivityContainer.add {α : Type} (c : InchoateActivityContainer α)
    (a : α) (domain : DomainId) (start_active : Bool) :
    InchoateActivityContainer α × ActivityId :=
  let (inner, id) := c.inner.add a domain start_active
  ({ c with inner := inner }, ActivityId.new (c.offset + id.index) domain)

/-- The `Nut` engine state from `src/nut.rs`. `RefCell` borrow availability is
modelled by the `Bool` flags `managedStateBorrowed` / `activitiesBorrowed`
(`true` while the corresponding storage is exclusively held); `executing` is
the `AtomicBool` reentrancy flag. The on-delete hook registries are modelled
from the spec (`add_on_delete` / `add_domained_on_delete` are not under
`src/`): they record, per slot index, an opaque hook token. -/
structure Nut (α η : Type) where
  activities : ActivityContainer α
  managed_state : ManagedState
  subscriptions : Subscriptions η
  deferred_events : List (Deferred η)
  executing : Bool
  inchoate_activities : InchoateActivityContainer α
  on_delete_hooks : List (Nat × Nat)
  domained_on_delete_hooks : List (Nat × Nat)
  managedStateBorrowed : Bool
  activitiesBorrowed : Bool
deriving DecidableEq, Repr

def Nut.new {α η : Type} : Nut α η :=
  { activities := ActivityContainer.empty
    managed_state := { domains := [] }
    subscriptions := Subscriptions.empty
    deferred_events := []
    executing := false
    inchoate_activities := InchoateActivityContainer.empty
    on_delete_hooks := []
    domained_on_delete_hooks := []
    managedStateBorrowed := false
    activitiesBorrowed := false }

/-- `Nut::push_closure` from `src/nut.rs`: when the `executing` flag is unset,
forward to `Subscriptions::force_push_closure`; otherwise push a
`Deferred::Subscription(topic, id.into(), closure)` onto the FIFO. -/
def Nut.push_closure {α η : Type} (nut : Nut α η) (topic : Topic)
    (id : ActivityId) (closure : η) : Nut α η :=
  if !nut.executing then
    { nut with subscriptions :=
        nut.subscriptions.force_push_closure topic id.into closure }
  else
    { nut with deferred_events :=
        nut.deferred_events ++ [Deferred.Subscription topic id.into closure] }

/-- `new_activity` from `src/nut.rs`: when not executing, prepare the domain,
bump the inchoate offset and add to the main container; when executing, push
`Deferred::FlushInchoateActivities` and add to the inchoate container.
(`status: LifecycleStatus` is embedded as the `active` flag it is stored as in
`src/nut/activity.rs`.) -/
def new_activity {α η : Type} (nut : Nut α η) (activity : α)
    (domain_index : DomainId) (status : Bool) : Nut α η × ActivityId :=
  if !nut.executing then
    let ms := nut.managed_state.prepare domain_index
    let inch := nut.inchoate_activities.inc_offset
    let (acts, id) := nut.activities.add activity domain_index status
    ({ nut with managed_state := ms, inchoate_activities := inch,
                activities := acts }, id)
  else
    let deferred := nut.deferred_events ++ [Deferred.FlushInchoateActivities]
    let (inch, id) := nut.inchoate_activities.add activity domain_index status
    ({ nut with deferred_events := deferred, inchoate_activities := inch }, id)

/-- `write_domain` from `src/nut.rs`: when `managed_state.try_borrow_mut()`
succeeds, prepare the domain and `store` the value into its bag; otherwise
push `Deferred::DomainStore(id, TypeId::of::<T>(), Box::new(data))`. `none`
models the `expect("No domain")` panic (unreachable after `prepare`). -/
def write_domain {α η : Type} (nut : Nut α η) (domain : DomainId)
    (tid : RustTypeId) (data : Nat) : Option (Nut α η) :=
  if !nut.managedStateBorrowed then
    let ms := nut.managed_state.prepare domain
    match ms.get_mut domain with
    | some storage =>
      some { nut with managed_state := ms.setDomain domain (storage.store tid data) }
    | none => none
  else
    some { nut with deferred_events :=
        nut.deferred_events ++ [Deferred.DomainStore domain tid data] }

/-- `std::cell::BorrowMutError`: the error returned by `try_borrow_mut` on an
exclusively held `RefCell`. -/
inductive BorrowMutError where
  | borrowMutError
deriving DecidableEq, Repr

/-- `register_on_delete` from `src/nut.rs`:
`nut.activities.try_borrow_mut()?.add_on_delete(id.into(), closure)` — an
`Err(BorrowMutError)` when the activity storage is exclusively held, otherwise
the hook (an opaque token) is recorded and `Ok(())` returned
(`add_on_delete` modelled from the spec: it records the deletion hook). -/
def register_on_delete {α η : Type} (nut : Nut α η) (id : ActivityId)
    (hook : Nat) : Nut α η × Except BorrowMutError Unit :=
  if nut.activitiesBorrowed then
    (nut, Except.error BorrowMutError.borrowMutError)
  else
    ({ nut with on_delete_hooks := nut.on_delete_hooks ++ [(id.into.index, hook)] },
     Except.ok ())

/-- `register_domained_on_delete` from `src/nut.rs`: same borrow discipline as
`register_on_delete`, recording a domain-aware hook
(`add_domained_on_delete` modelled from the spec). -/
def register_domained_on_delete {α η : Type} (nut : Nut α η) (id : ActivityId)
    (hook : Nat) : Nut α η × Except BorrowMutError Unit :=
  if nut.activitiesBorrowed then
    (nut, Except.error BorrowMutError.borrowMutError)
  else
    ({ nut with domained_on_delete_hooks :=
         nut.domained_on_delete_hooks ++ [(id.into.index, hook)] },
     Except.ok ())

/-- Modelled from the spec: `ActivityContainer::delete` (not under `src/`)
clears the slot to empty permanently — the tombstoned slot keeps its position,
so `data.len()` is unchanged and the index is never handed out again. -/
def ActivityContainer.delete {α : Type} (c : ActivityContainer α) (idx : Nat) :
    ActivityContainer α :=
  { c with data := c.data.set idx none }

/-- A creation or deletion step on the `ActivityContainer`. -/
inductive ActivityOp (α : Type) where
  | add (a : α) (domain : DomainId) (start_active : Bool)
  | delete (idx : Nat)
deriving DecidableEq, Repr

/-- Run one `ActivityOp` on the container. -/
def applyOp {α : Type} (c : ActivityContainer α) : ActivityOp α → ActivityContainer α
  | ActivityOp.add a d b => (c.add a d b).1
  | ActivityOp.delete i => c.delete i

/-- The slot indices handed out by the `add` calls of a run of operations,
in order. -/
def assignedIndices {α : Type} (c : ActivityContainer α) :
    List (ActivityOp α) → List Nat
  | [] => []
  | ActivityOp.add a d b :: ops =>
      (c.add a d b).2.index :: assignedIndices (applyOp c (ActivityOp.add a d b)) ops
  | ActivityOp.delete i :: ops =>
      assignedIndices (applyOp c (ActivityOp.delete i)) ops

/-- A sequence of registrations `(slot, handler)` pushed into an
`ActivityHandlerContainer` in order. -/
def pushAll {η : Type} (c : ActivityHandlerContainer η) (regs : List (Nat × η)) :
    ActivityHandlerContainer η :=
  regs.foldl (fun acc r => acc.push r.1 r.2) c

/-! ## Lemmas about association-list updates -/

theorem find?_pushEntry_same {η : Type} (k : Nat) (h : η)
    (l : List (Nat × List η)) :
    (pushEntry k h l).find? (fun e => e.1 == k)
      = some (k, ((l.find? (fun e => e.1 == k)).map Prod.snd).getD [] ++ [h]) := by
  induction l with
  | nil => simp [pushEntry]
  | cons e es ih =>
    by_cases hk : e.1 = k
    · simp [pushEntry, hk]
    · simp only [pushEntry, beq_iff_eq, hk, if_false, List.find?_cons_of_neg,
        decide_eq_true_eq, not_false_iff]
      simpa [hk] using ih

theorem find?_pushEntry_ne {η : Type} (j k : Nat) (h : η)
    (l : List (Nat × List η)) (hne : j ≠ k) :
    (pushEntry j h l).find? (fun e => e.1 == k)
      = l.find? (fun e => e.1 == k) := by
  induction l with
  | nil => simp [pushEntry, hne]
  | cons e es ih =>
    by_cases hj : e.1 = j
    · simp [pushEntry, hj, hne]
    · by_cases hk : e.1 = k
      · simp [pushEntry, hj, hk, Ne.symm hne]
      · simp [pushEntry, hj, hk, ih]

theorem lookup_push_same {η : Type} (c : ActivityHandlerContainer η)
    (k : Nat) (h : η) :
    (c.push k h).lookup k = some ((c.lookup k).getD [] ++ [h]) := by
  simp [ActivityHandlerContainer.push, ActivityHandlerContainer.lookup,
    find?_pushEntry_same]

theorem lookup_push_ne {η : Type} (c : ActivityHandlerContainer η)
    (j k : Nat) (h : η) (hne : j ≠ k) :
    (c.push j h).lookup k = c.lookup k := by
  simp [ActivityHandlerContainer.push, ActivityHandlerContainer.lookup,
    find?_pushEntry_ne j k h c.data hne]

theorem lookup_pushAll {η : Type} (regs : List (Nat × η))
    (c : ActivityHandlerContainer η) (k : Nat) :
    ((pushAll c regs).lookup k).getD []
      = (c.lookup k).getD [] ++ (regs.filter (fun r => r.1 == k)).map Prod.snd := by
  induction regs generalizing c with
  | nil => simp [pushAll]
  | cons r rs ih =>
    have hstep : pushAll c (r :: rs) = pushAll (c.push r.1 r.2) rs := rfl
    rw [hstep, ih]
    by_cases hr : r.1 = k
    · subst hr
      rw [lookup_push_same]
      simp
    · rw [lookup_push_ne c r.1 k r.2 hr]
      simp [List.filter_cons, hr]

/-! ## C1 — dispatch enumeration order -/

/-- C1 (counterexample): the claim "the union over all activities of a topic's
handler lists, as enumerated for dispatch, follows registration order" fails.
Register handler `10` for activity slot `0`, then handler `11` for slot `1`
(registration order `[10, 11]`). `ActivityHandlerContainer::iter` flat-maps
over `HashMap::values()`, whose order is unspecified: the admissible key
enumeration `[1, 0]` (a permutation of the stored keys) yields dispatch order
`[11, 10]`. -/
theorem claim_C1_counterexample :
    ¬ ∀ ord : List Nat,
        ord.Perm (pushAll (ActivityHandlerContainer.empty : ActivityHandlerContainer Nat)
            [(0, 10), (1, 11)]).keys →
        (pushAll (ActivityHandlerContainer.empty : ActivityHandlerContainer Nat)
            [(0, 10), (1, 11)]).iterIn ord = [10, 11] := by
  intro hAll
  have hperm : ([1, 0] : List Nat).Perm
      (pushAll (ActivityHandlerContainer.empty : ActivityHandlerContainer Nat)
        [(0, 10), (1, 11)]).keys := by
    show ([1, 0] : List Nat).Perm [0, 1]
    exact List.Perm.swap 0 1 []
  have h := hAll [1, 0] hperm
  revert h
  decide

/-- C1 (amended): handlers bound to the same activity are dispatched in
registration order — `iter_for` yields exactly the handlers registered for
that slot, in registration order, and for every key enumeration the dispatch
iteration is the concatenation of the per-activity registration-ordered
lists in that (unspecified `HashMap`) key order; only the relative order of
handlers of distinct activities is not registration order. -/
theorem claim_C1_amended {η : Type} (regs : List (Nat × η)) (kid : ActivityId)
    (ord : List Nat) :
    (pushAll ActivityHandlerContainer.empty regs).iter_for kid
      = (regs.filter (fun r => r.1 == kid.index)).map Prod.snd ∧
    (pushAll ActivityHandlerContainer.empty regs).iterIn ord
      = ord.flatMap (fun j => (regs.filter (fun r => r.1 == j)).map Prod.snd) := by
  constructor
  · rw [ActivityHandlerContainer.iter_for, lookup_pushAll]
    simp [ActivityHandlerContainer.empty, ActivityHandlerContainer.lookup]
  · rw [ActivityHandlerContainer.iterIn]
    apply List.flatMap_congr
    intro x hx
    rw [lookup_pushAll]
    simp [ActivityHandlerContainer.empty, ActivityHandlerContainer.lookup]

/-! ## C2 — assigned indices are fresh and strictly increasing -/

theorem length_le_applyOp {α : Type} (c : ActivityContainer α) (op : ActivityOp α) :
    c.data.length ≤ (applyOp c op).data.length := by
  cases op <;>
    simp [applyOp, ActivityContainer.add, ActivityContainer.delete]

theorem length_le_assignedIndices {α : Type} (ops : List (ActivityOp α))
    (c : ActivityContainer α) :
    ∀ i ∈ assignedIndices c ops, c.data.length ≤ i := by
  induction ops generalizing c with
  | nil => simp [assignedIndices]
  | cons op rest ih =>
    cases op with
    | add a d b =>
      intro i hi
      simp only [assignedIndices, ActivityContainer.add, ActivityId.new,
        List.mem_cons] at hi
      rcases hi with h | h
      · omega
      · have hle := ih (applyOp c (ActivityOp.add a d b)) i h
        have hlen : (applyOp c (ActivityOp.add a d b)).data.length
            = c.data.length + 1 := by
          simp [applyOp, ActivityContainer.add]
        omega
    | delete idx =>
      intro i hi
      simp only [assignedIndices] at hi
      have hle := ih (applyOp c (ActivityOp.delete idx)) i hi
      have hlen : (applyOp c (ActivityOp.delete idx)).data.length
          = c.data.length := by
        simp [applyOp, ActivityContainer.delete]
      omega

/-- C2: `ActivityContainer::add` hands out the slot index `self.data.len()`
read before the push, so over any interleaved sequence of creations and
deletions the indices assigned by the `add` calls are strictly increasing and
no index is ever assigned twice (deletion tombstones the slot and leaves
`data.len()` unchanged). -/
theorem claim_C2_indices_fresh {α : Type} (c : ActivityContainer α)
    (ops : List (ActivityOp α)) (a : α) (d : DomainId) (b : Bool) :
    (c.add a d b).2.index = c.data.length ∧
    (assignedIndices c ops).Pairwise (· < ·) ∧
    (assignedIndices c ops).Nodup := by
  have hpair : ∀ (ops : List (ActivityOp α)) (c : ActivityContainer α),
      (assignedIndices c ops).Pairwise (· < ·) := by
    intro ops
    induction ops with
    | nil => intro c; simp [assignedIndices]
    | cons op rest ih =>
      intro c
      cases op with
      | add a2 d2 b2 =>
        simp only [assignedIndices, ActivityContainer.add, ActivityId.new,
          List.pairwise_cons]
        refine ⟨?_, ih _⟩
        intro i hi
        have hle := length_le_assignedIndices rest
          (applyOp c (ActivityOp.add a2 d2 b2)) i hi
        have hlen : (applyOp c (ActivityOp.add a2 d2 b2)).data.length
            = c.data.length + 1 := by
          simp [applyOp, ActivityContainer.add]
        omega
      | delete idx =>
        simp only [assignedIndices]
        exact ih _
  exact ⟨rfl, hpair ops c, (hpair ops c).imp Nat.ne_of_lt⟩

/-! ## C7 — indexing an empty slot panics -/

/-- C7: accessing the payload of an `ActivityId` whose slot is empty —
tombstoned by deletion (`data[id.index]` holds `None`) or never stored
(`id.index` is out of bounds) — panics (`none`) instead of returning data; and
whenever indexing does return a payload, it is exactly the payload stored in
that id's own slot, never another activity's. -/
theorem claim_C7_empty_slot_panics {α : Type} (c : ActivityContainer α)
    (id : ActivityId) :
    (c.data[id.index]? = some none → c.get id = none) ∧
    (c.data[id.index]? = none → c.get id = none) ∧
    (∀ a, c.get id = some a → c.data[id.index]? = some (some a)) := by
  refine ⟨?_, ?_, ?_⟩
  · intro h
    simp [ActivityContainer.get, h]
  · intro h
    simp [ActivityContainer.get, h]
  · intro a ha
    rcases hx : c.data[id.index]? with _ | (_ | a2) <;>
      simp [ActivityContainer.get, hx] at ha
    subst ha
    rfl

theorem claim_C7_witness :
    (ActivityContainer.mk ([none, some 3] : List (Option Nat)) [true, true]).data[0]?
        = some none ∧
    (ActivityContainer.mk ([none, some 3] : List (Option Nat)) [true, true]).get
        (ActivityId.new 0 0) = none :=
  ⟨by decide,
   (claim_C7_empty_slot_panics
      (ActivityContainer.mk ([none, some 3] : List (Option Nat)) [true, true])
      (ActivityId.new 0 0)).1 (by decide)⟩

/-! ## C8 — `add` is append-only -/

/-- C8: `ActivityContainer::add` appends exactly one payload slot and one
active flag at the end of `data` and `active`, the new flag equals
`start_active`, the returned id carries the requested slot index and domain,
and every previously stored payload and active flag is unchanged. -/
theorem claim_C8_add_frame {α : Type} (c : ActivityContainer α) (a : α)
    (domain : DomainId) (start_active : Bool) :
    ((c.add a domain start_active).1).data.length = c.data.length + 1 ∧
    ((c.add a domain start_active).1).active.length = c.active.length + 1 ∧
    ((c.add a domain start_active).1).data[c.data.length]? = some (some a) ∧
    ((c.add a domain start_active).1).active[c.active.length]? = some start_active ∧
    (c.add a domain start_active).2 = ActivityId.new c.data.length domain ∧
    (∀ i, i < c.data.length →
        ((c.add a domain start_active).1).data[i]? = c.data[i]?) ∧
    (∀ i, i < c.active.length →
        ((c.add a domain start_active).1).active[i]? = c.active[i]?) := by
  refine ⟨by simp [ActivityContainer.add], by simp [ActivityContainer.add],
    ?_, ?_, rfl, ?_, ?_⟩
  · simp [ActivityContainer.add, List.getElem?_concat_length]
  · simp [ActivityContainer.add, List.getElem?_concat_length]
  · intro i hi
    simp [ActivityContainer.add, List.getElem?_append_left hi]
  · intro i hi
    simp [ActivityContainer.add, List.getElem?_append_left hi]

theorem claim_C8_witness :
    ((ActivityContainer.mk ([some 5] : List (Option Nat)) [false]).add 7 2 true).2
        = ActivityId.new 1 2 ∧
    ((ActivityContainer.mk ([some 5] : List (Option Nat)) [false]).add 7 2 true).1.data[1]?
        = some (some 7) ∧
    ((ActivityContainer.mk ([some 5] : List (Option Nat)) [false]).add 7 2 true).1.data[0]?
        = some (some 5) :=
  ⟨(claim_C8_add_frame (ActivityContainer.mk [some 5] [false]) 7 2 true).2.2.2.2.1,
   (claim_C8_add_frame (ActivityContainer.mk [some 5] [false]) 7 2 true).2.2.1,
   (claim_C8_add_frame (ActivityContainer.mk [some 5] [false]) 7 2 true).2.2.2.2.2.1
      0 (by decide)⟩

/-! ## C9 — unguarded active-flag indexing -/

/-- C9: `is_active` and `set_active` index the `active` vector without a bounds
guard; for every id whose index is not below the number of stored flags (such
as an id handed out for a staged activity that has not been flushed yet) the
call panics (`none`) instead of reading or writing a flag. -/
theorem claim_C9_unguarded_flag_index {α : Type} (c : ActivityContainer α)
    (id : ActivityId) (b : Bool) (h : c.active.length ≤ id.index) :
    c.is_active id = none ∧ c.set_active id b = none := by
  constructor
  · simp [ActivityContainer.is_active, List.getElem?_eq_none h]
  · rw [ActivityContainer.set_active, if_neg (by omega)]

theorem claim_C9_witness :
    (ActivityContainer.empty : ActivityContainer Nat).active.length ≤ 0 ∧
    ((ActivityContainer.empty : ActivityContainer Nat).is_active (ActivityId.new 0 0)
        = none ∧
     (ActivityContainer.empty : ActivityContainer Nat).set_active (ActivityId.new 0 0)
        true = none) :=
  ⟨by decide,
   claim_C9_unguarded_flag_index (ActivityContainer.empty : ActivityContainer Nat)
     (ActivityId.new 0 0) true (by decide)⟩

/-! ## C10 — handler-map indexing totality -/

theorem find?_append_of_none {γ : Type} (p : γ → Bool) (l1 l2 : List γ)
    (h : l1.find? p = none) : (l1 ++ l2).find? p = l2.find? p := by
  induction l1 with
  | nil => simp
  | cons e es ih =>
    by_cases hp : p e
    · simp [List.find?_cons_of_pos _ hp] at h
    · simp only [List.cons_append, List.find?_cons_of_neg _ hp] at h ⊢
      exact ih h

/-- C10: mutable indexing of `ActivityHandlerContainer` by an `ActivityId`
with no handler list is total — it inserts and returns a fresh empty list —
while read-only indexing of a missing slot panics (`none`) and `iter_for`
yields an empty iteration for it; indexing a present slot returns its stored
list unchanged. -/
theorem claim_C10_handler_indexing {η : Type} (c : ActivityHandlerContainer η)
    (id : ActivityId) :
    (c.lookup id.index = none →
        c.get_mut id = (ActivityHandlerContainer.mk (c.data ++ [(id.index, [])]), []) ∧
        (c.get_mut id).1.lookup id.index = some []) ∧
    (∀ l, c.lookup id.index = some l → c.get_mut id = (c, l)) ∧
    (c.lookup id.index = none → c.get id = none) ∧
    (c.lookup id.index = none → c.iter_for id = []) := by
  refine ⟨?_, ?_, ?_, ?_⟩
  · intro h
    have hfind : c.data.find? (fun e => e.1 == id.index) = none := by
      simpa [ActivityHandlerContainer.lookup] using h
    constructor
    · simp [ActivityHandlerContainer.get_mut, h]
    · simp only [ActivityHandlerContainer.get_mut, h]
      simp [ActivityHandlerContainer.lookup,
        find?_append_of_none _ _ _ hfind]
  · intro l h
    simp [ActivityHandlerContainer.get_mut, h]
  · intro h
    simp [ActivityHandlerContainer.get, h]
  · intro h
    simp [ActivityHandlerContainer.iter_for, h]

theorem claim_C10_witness :
    (ActivityHandlerContainer.mk ([(1, [4])] : List (Nat × List Nat))).lookup 0
        = none ∧
    ((ActivityHandlerContainer.mk ([(1, [4])] : List (Nat × List Nat))).get_mut
        (ActivityId.new 0 0)
      = (ActivityHandlerContainer.mk [(1, [4]), (0, [])], []) ∧
     ((ActivityHandlerContainer.mk ([(1, [4])] : List (Nat × List Nat))).get_mut
        (ActivityId.new 0 0)).1.lookup 0 = some []) ∧
    (ActivityHandlerContainer.mk ([(1, [4])] : List (Nat × List Nat))).get
        (ActivityId.new 0 0) = none ∧
    (ActivityHandlerContainer.mk ([(1, [4])] : List (Nat × List Nat))).iter_for
        (ActivityId.new 0 0) = [] :=
  ⟨by decide,
   (claim_C10_handler_indexing (ActivityHandlerContainer.mk [(1, [4])])
      (ActivityId.new 0 0)).1 (by decide),
   (claim_C10_handler_indexing (ActivityHandlerContainer.mk [(1, [4])])
      (ActivityId.new 0 0)).2.2.1 (by decide),
   (claim_C10_handler_indexing (ActivityHandlerContainer.mk [(1, [4])])
      (ActivityId.new 0 0)).2.2.2 (by decide)⟩

/-! ## C3 — subscription registration is immediate when idle, deferred when busy -/

theorem find?_pushTopicEntry_same {η : Type} (t : Topic) (k : Nat) (h : η)
    (l : List (Topic × ActivityHandlerContainer η)) :
    ((pushTopicEntry t k h l).find? (fun e => e.1 == t)).map Prod.snd
      = some ((((l.find? (fun e => e.1 == t)).map Prod.snd).getD
          ActivityHandlerContainer.empty).push k h) := by
  induction l with
  | nil => simp [pushTopicEntry]
  | cons e es ih =>
    by_cases ht : e.1 = t
    · simp [pushTopicEntry, ht]
    · simp only [pushTopicEntry, beq_iff_eq, ht, if_false,
        List.find?_cons_of_neg, decide_eq_true_eq, not_false_iff]
      simpa [ht] using ih

theorem find?_pushTopicEntry_ne {η : Type} (t t2 : Topic) (k : Nat) (h : η)
    (l : List (Topic × ActivityHandlerContainer η)) (hne : t2 ≠ t) :
    (pushTopicEntry t k h l).find? (fun e => e.1 == t2)
      = l.find? (fun e => e.1 == t2) := by
  induction l with
  | nil => simp [pushTopicEntry, Ne.symm hne]
  | cons e es ih =>
    by_cases ht : e.1 = t
    · simp [pushTopicEntry, ht, Ne.symm hne]
    · by_cases ht2 : e.1 = t2
      · simp [pushTopicEntry, ht, ht2, hne]
      · simp [pushTopicEntry, ht, ht2, ih]

theorem lookup_force_push_same {η : Type} (s : Subscriptions η) (t : Topic)
    (id : UncheckedActivityId) (h : η) :
    (s.force_push_closure t id h).lookup t
      = some (((s.lookup t).getD ActivityHandlerContainer.empty).push id.index h) := by
  simp only [Subscriptions.force_push_closure, Subscriptions.lookup]
  exact find?_pushTopicEntry_same t id.index h s.topics

theorem lookup_force_push_ne {η : Type} (s : Subscriptions η) (t t2 : Topic)
    (id : UncheckedActivityId) (h : η) (hne : t2 ≠ t) :
    (s.force_push_closure t id h).lookup t2 = s.lookup t2 := by
  simp only [Subscriptions.force_push_closure, Subscriptions.lookup]
  rw [find?_pushTopicEntry_ne t t2 id.index h s.topics hne]

theorem handlersFor_force_push_same {η : Type} (s : Subscriptions η) (t : Topic)
    (id : UncheckedActivityId) (h : η) :
    (s.force_push_closure t id h).handlersFor t id.index
      = s.handlersFor t id.index ++ [h] := by
  simp only [Subscriptions.handlersFor, lookup_force_push_same]
  cases hf : s.lookup t with
  | none => simp [ActivityHandlerContainer.empty, ActivityHandlerContainer.push,
      pushEntry, ActivityHandlerContainer.lookup]
  | some c => simp [lookup_push_same]

theorem handlersFor_force_push_frame {η : Type} (s : Subscriptions η)
    (t t2 : Topic) (id : UncheckedActivityId) (k2 : Nat) (h : η)
    (hne : t2 ≠ t ∨ k2 ≠ id.index) :
    (s.force_push_closure t id h).handlersFor t2 k2 = s.handlersFor t2 k2 := by
  rcases hne with hne | hne
  · simp only [Subscriptions.handlersFor, lookup_force_push_ne s t t2 id h hne]
  · by_cases ht : t2 = t
    · subst ht
      simp only [Subscriptions.handlersFor, lookup_force_push_same]
      cases hf : s.lookup t2 with
      | none => simp [ActivityHandlerContainer.empty, ActivityHandlerContainer.push,
          pushEntry, ActivityHandlerContainer.lookup, Ne.symm hne]
      | some c => simp [lookup_push_ne _ _ _ _ (Ne.symm hne)]
    · simp only [Subscriptions.handlersFor, lookup_force_push_ne s t t2 id h ht]

/-- C3: `Nut::push_closure` with the `executing` flag unset appends the handler
to the subscription registry immediately (the topic's list for the subscribing
activity grows by exactly that handler, every other topic/activity list is
unchanged) and leaves the deferred FIFO untouched; with the flag set it instead
appends a `Deferred::Subscription` event to the FIFO and leaves the registry
unchanged. -/
theorem claim_C3_push_closure {α η : Type} (nut : Nut α η) (topic : Topic)
    (id : ActivityId) (closure : η) :
    (nut.executing = false →
        (nut.push_closure topic id closure).deferred_events = nut.deferred_events ∧
        (nut.push_closure topic id closure).subscriptions.handlersFor topic id.index
          = nut.subscriptions.handlersFor topic id.index ++ [closure] ∧
        (∀ t2 k2, t2 ≠ topic ∨ k2 ≠ id.index →
            (nut.push_closure topic id closure).subscriptions.handlersFor t2 k2
              = nut.subscriptions.handlersFor t2 k2)) ∧
    (nut.executing = true →
        (nut.push_closure topic id closure).subscriptions = nut.subscriptions ∧
        (nut.push_closure topic id closure).deferred_events
          = nut.deferred_events ++ [Deferred.Subscription topic id.into closure]) := by
  constructor
  · intro h
    refine ⟨by simp [Nut.push_closure, h], ?_, ?_⟩
    · simp only [Nut.push_closure, h, Bool.not_false, if_pos]
      exact handlersFor_force_push_same nut.subscriptions topic id.into closure
    · intro t2 k2 hne
      simp only [Nut.push_closure, h, Bool.not_false, if_pos]
      exact handlersFor_force_push_frame nut.subscriptions topic t2 id.into k2
        closure hne
  · intro h
    constructor <;> simp [Nut.push_closure, h]

theorem claim_C3_witness :
    ((Nut.new : Nut Nat Nat).executing = false ∧
      ((Nut.new : Nut Nat Nat).push_closure Topic.enter (ActivityId.new 0 0)
          5).subscriptions.handlersFor Topic.enter 0 = [5]) ∧
    (({ Nut.new with executing := true } : Nut Nat Nat).executing = true ∧
      (({ Nut.new with executing := true } : Nut Nat Nat).push_closure Topic.enter
          (ActivityId.new 0 0) 5).deferred_events
        = [Deferred.Subscription Topic.enter (ActivityId.new 0 0).into 5]) :=
  ⟨⟨rfl, ((claim_C3_push_closure (Nut.new : Nut Nat Nat) Topic.enter
      (ActivityId.new 0 0) 5).1 rfl).2.1⟩,
   ⟨rfl, ((claim_C3_push_closure ({ Nut.new with executing := true } : Nut Nat Nat)
      Topic.enter (ActivityId.new 0 0) 5).2 rfl).2⟩⟩

/-! ## C4 — activity creation: immediate when idle, staged when busy -/

/-- C4: `new_activity` returns a valid `ActivityId` in both modes (its index
names the slot the activity occupies, or will occupy after the flush, and it
carries the requested domain). When no broadcast is in progress the payload is
added to the main `ActivityContainer` immediately (after preparing the domain)
and nothing is deferred; when a broadcast is in progress the payload is placed
in the inchoate (staging) container, a `Deferred::FlushInchoateActivities`
event is pushed onto the FIFO, and the main container is left unchanged. -/
theorem claim_C4_new_activity {α η : Type} (nut : Nut α η) (a : α)
    (d : DomainId) (status : Bool) :
    (new_activity nut a d status).2.domain_index = d ∧
    (nut.executing = false →
        (new_activity nut a d status).2 = ActivityId.new nut.activities.data.length d ∧
        (new_activity nut a d status).1.activities.get
            (new_activity nut a d status).2 = some a ∧
        (new_activity nut a d status).1.managed_state
          = nut.managed_state.prepare d ∧
        (new_activity nut a d status).1.deferred_events = nut.deferred_events ∧
        (new_activity nut a d status).1.inchoate_activities.inner
          = nut.inchoate_activities.inner) ∧
    (nut.executing = true →
        (new_activity nut a d status).2
          = ActivityId.new
              (nut.inchoate_activities.offset
                + nut.inchoate_activities.inner.data.length) d ∧
        (new_activity nut a d status).1.activities = nut.activities ∧
        (new_activity nut a d status).1.inchoate_activities.inner.get
            (ActivityId.new nut.inchoate_activities.inner.data.length d) = some a ∧
        (new_activity nut a d status).1.deferred_events
          = nut.deferred_events ++ [Deferred.FlushInchoateActivities]) := by
  refine ⟨?_, ?_, ?_⟩
  · by_cases h : nut.executing <;>
      simp [new_activity, h, ActivityContainer.add, ActivityId.new,
        InchoateActivityContainer.add]
  · intro h
    refine ⟨by simp [new_activity, h, ActivityContainer.add, ActivityId.new], ?_,
      by simp [new_activity, h], by simp [new_activity, h],
      by simp [new_activity, h, InchoateActivityContainer.inc_offset]⟩
    simp [new_activity, h, ActivityContainer.add, ActivityContainer.get,
      ActivityId.new, List.getElem?_concat_length]
  · intro h
    refine ⟨by simp [new_activity, h, InchoateActivityContainer.add,
        ActivityContainer.add, ActivityId.new],
      by simp [new_activity, h], ?_, by simp [new_activity, h]⟩
    simp [new_activity, h, InchoateActivityContainer.add, ActivityContainer.add,
      ActivityContainer.get, ActivityId.new, List.getElem?_concat_length]

theorem claim_C4_witness :
    ((Nut.new : Nut Nat Nat).executing = false ∧
      (new_activity (Nut.new : Nut Nat Nat) 9 1 true).2 = ActivityId.new 0 1 ∧
      (new_activity (Nut.new : Nut Nat Nat) 9 1 true).1.activities.get
          (ActivityId.new 0 1) = some 9) ∧
    (({ Nut.new with executing := true } : Nut Nat Nat).executing = true ∧
      (new_activity ({ Nut.new with executing := true } : Nut Nat Nat) 9 1
          true).1.activities = ({ Nut.new with executing := true } : Nut Nat Nat).activities ∧
      (new_activity ({ Nut.new with executing := true } : Nut Nat Nat) 9 1
          true).1.deferred_events = [Deferred.FlushInchoateActivities]) :=
  ⟨⟨rfl,
    ((claim_C4_new_activity (Nut.new : Nut Nat Nat) 9 1 true).2.1 rfl).1,
    ((claim_C4_new_activity (Nut.new : Nut Nat Nat) 9 1 true).2.1 rfl).2.1⟩,
   ⟨rfl,
    ((claim_C4_new_activity ({ Nut.new with executing := true } : Nut Nat Nat)
        9 1 true).2.2 rfl).2.1,
    ((claim_C4_new_activity ({ Nut.new with executing := true } : Nut Nat Nat)
        9 1 true).2.2 rfl).2.2.2⟩⟩

/-! ## C5 — domain writes: immediate when available, deferred when held -/

theorem read_storeObject_same (tid : RustTypeId) (v : Nat)
    (l : List (RustTypeId × Nat)) :
    ((storeObject tid v l).find? (fun e => e.1 == tid)).map Prod.snd = some v := by
  induction l with
  | nil => simp [storeObject]
  | cons e es ih =>
    by_cases ht : e.1 = tid
    · simp [storeObject, ht]
    · simp only [storeObject, beq_iff_eq, ht, if_false, List.find?_cons_of_neg,
        decide_eq_true_eq, not_false_iff]
      exact ih

theorem read_storeObject_ne (tid t2 : RustTypeId) (v : Nat)
    (l : List (RustTypeId × Nat)) (hne : t2 ≠ tid) :
    (storeObject tid v l).find? (fun e => e.1 == t2)
      = l.find? (fun e => e.1 == t2) := by
  induction l with
  | nil => simp [storeObject, Ne.symm hne]
  | cons e es ih =>
    by_cases ht : e.1 = tid
    · simp [storeObject, ht, Ne.symm hne]
    · by_cases ht2 : e.1 = t2
      · simp [storeObject, ht, ht2, hne]
      · simp [storeObject, ht, ht2, ih]

theorem read_store_same (d : DomainState) (tid : RustTypeId) (v : Nat) :
    (d.store tid v).read tid = some v := by
  simp only [DomainState.store, DomainState.read]
  exact read_storeObject_same tid v d.objects

theorem read_store_ne (d : DomainState) (tid t2 : RustTypeId) (v : Nat)
    (hne : t2 ≠ tid) : (d.store tid v).read t2 = d.read t2 := by
  simp only [DomainState.store, DomainState.read]
  rw [read_storeObject_ne tid t2 v d.objects hne]

theorem prepare_length (m : ManagedState) (id : DomainId) :
    id < (m.prepare id).domains.length := by
  by_cases h : id < m.domains.length
  · simp [ManagedState.prepare, h]
  · simp [ManagedState.prepare, h]
    have h2 : m.domains.length ≤ id + 1 := Nat.le_succ_of_le (Nat.not_lt.mp h)
    rw [Nat.add_sub_cancel' h2]
    exact Nat.lt_succ_self id

theorem prepare_get_mut (m : ManagedState) (id : DomainId) :
    ∃ st, (m.prepare id).get_mut id = some st := by
  rw [ManagedState.get_mut]
  exact ⟨_, List.getElem?_eq_getElem (prepare_length m id)⟩

/-- C5: `write_domain` with the domain storage available prepares the domain
and stores the value immediately — a subsequent typed read of `T` in that
domain's bag yields the new value, overwriting any previously stored value of
the same type, while values of other types are untouched — and defers nothing;
with the storage exclusively held it appends a `Deferred::DomainStore` event
carrying the domain id, the value's `TypeId` and the value, and leaves the
domain storage unchanged. -/
theorem claim_C5_write_domain {α η : Type} (nut : Nut α η) (domain : DomainId)
    (tid : RustTypeId) (data : Nat) :
    (nut.managedStateBorrowed = false →
        ∃ nut2, write_domain nut domain tid data = some nut2 ∧
          (nut2.managed_state.get_mut domain).map (fun st => st.read tid)
            = some (some data) ∧
          (∀ t2, t2 ≠ tid →
              (nut2.managed_state.get_mut domain).map (fun st => st.read t2)
                = ((nut.managed_state.prepare domain).get_mut domain).map
                    (fun st => st.read t2)) ∧
          nut2.deferred_events = nut.deferred_events ∧
          nut2.subscriptions = nut.subscriptions ∧
          nut2.activities = nut.activities) ∧
    (nut.managedStateBorrowed = true →
        write_domain nut domain tid data
          = some { nut with deferred_events :=
              nut.deferred_events ++ [Deferred.DomainStore domain tid data] }) := by
  constructor
  · intro h
    obtain ⟨st, hst⟩ := prepare_get_mut nut.managed_state domain
    refine ⟨{ nut with managed_state :=
        (nut.managed_state.prepare domain).setDomain domain (st.store tid data) },
      ?_, ?_, ?_, rfl, rfl, rfl⟩
    · rw [write_domain, h]
      simp only [Bool.not_false, if_pos, hst]
    · have hget : (((nut.managed_state.prepare domain).setDomain domain
          (st.store tid data)).get_mut domain) = some (st.store tid data) := by
        rw [ManagedState.get_mut, ManagedState.setDomain]
        rw [List.getElem?_set_self]
        · simp [prepare_length nut.managed_state domain]
      rw [hget]
      simp [read_store_same]
    · intro t2 hne
      have hget : (((nut.managed_state.prepare domain).setDomain domain
          (st.store tid data)).get_mut domain) = some (st.store tid data) := by
        rw [ManagedState.get_mut, ManagedState.setDomain]
        rw [List.getElem?_set_self]
        · simp [prepare_length nut.managed_state domain]
      rw [hget, hst]
      simp [read_store_ne st tid t2 data hne]
  · intro h
    rw [write_domain, h]
    simp

theorem claim_C5_witness :
    (({ Nut.new with managedStateBorrowed := true } : Nut Nat Nat).managedStateBorrowed
        = true ∧
      write_domain ({ Nut.new with managedStateBorrowed := true } : Nut Nat Nat)
          0 3 42
        = some { ({ Nut.new with managedStateBorrowed := true } : Nut Nat Nat) with
            deferred_events := [Deferred.DomainStore 0 3 42] }) ∧
    ((Nut.new : Nut Nat Nat).managedStateBorrowed = false ∧
      ∃ nut2, write_domain (Nut.new : Nut Nat Nat) 0 3 42 = some nut2 ∧
        (nut2.managed_state.get_mut 0).map (fun st => st.read 3)
          = some (some 42) ∧
        (∀ t2, t2 ≠ 3 →
            (nut2.managed_state.get_mut 0).map (fun st => st.read t2)
              = (((Nut.new : Nut Nat Nat).managed_state.prepare 0).get_mut 0).map
                  (fun st => st.read t2)) ∧
        nut2.deferred_events = (Nut.new : Nut Nat Nat).deferred_events ∧
        nut2.subscriptions = (Nut.new : Nut Nat Nat).subscriptions ∧
        nut2.activities = (Nut.new : Nut Nat Nat).activities) :=
  ⟨⟨rfl, (claim_C5_write_domain ({ Nut.new with managedStateBorrowed := true } :
      Nut Nat Nat) 0 3 42).2 rfl⟩,
   ⟨rfl, (claim_C5_write_domain (Nut.new : Nut Nat Nat) 0 3 42).1 rfl⟩⟩

/-! ## C6 — on-delete registration: unavailable storage yields an error -/

/-- C6: `register_on_delete` and `register_domained_on_delete` called while the
activity storage is exclusively held return the distinguishable
`Err(BorrowMutError)` value with the engine state unchanged (no panic), and
when the storage is available they record the deletion hook and return
`Ok(())`. -/
theorem claim_C6_on_delete_borrow {α η : Type} (nut : Nut α η)
    (id id2 : ActivityId) (hook hook2 : Nat) :
    (nut.activitiesBorrowed = true →
        register_on_delete nut id hook
          = (nut, Except.error BorrowMutError.borrowMutError) ∧
        register_domained_on_delete nut id2 hook2
          = (nut, Except.error BorrowMutError.borrowMutError)) ∧
    (nut.activitiesBorrowed = false →
        register_on_delete nut id hook
          = ({ nut with on_delete_hooks :=
                nut.on_delete_hooks ++ [(id.into.index, hook)] }, Except.ok ()) ∧
        register_domained_on_delete nut id2 hook2
          = ({ nut with domained_on_delete_hooks :=
                nut.domained_on_delete_hooks ++ [(id2.into.index, hook2)] },
             Except.ok ())) := by
  constructor <;> intro h <;>
    exact ⟨by simp [register_on_delete, h],
           by simp [register_domained_on_delete, h]⟩

theorem claim_C6_witness :
    (({ Nut.new with activitiesBorrowed := true } : Nut Nat Nat).activitiesBorrowed
        = true ∧
      register_on_delete ({ Nut.new with activitiesBorrowed := true } : Nut Nat Nat)
          (ActivityId.new 0 0) 8
        = (({ Nut.new with activitiesBorrowed := true } : Nut Nat Nat),
           Except.error BorrowMutError.borrowMutError)) ∧
    ((Nut.new : Nut Nat Nat).activitiesBorrowed = false ∧
      register_on_delete (Nut.new : Nut Nat Nat) (ActivityId.new 0 0) 8
        = ({ (Nut.new : Nut Nat Nat) with on_delete_hooks := [(0, 8)] },
           Except.ok ())) :=
  ⟨⟨rfl, ((claim_C6_on_delete_borrow
      ({ Nut.new with activitiesBorrowed := true } : Nut Nat Nat)
      (ActivityId.new 0 0) (ActivityId.new 0 0) 8 8).1 rfl).1⟩,
   ⟨rfl, ((claim_C6_on_delete_borrow (Nut.new : Nut Nat Nat)
      (ActivityId.new 0 0) (ActivityId.new 0 0) 8 8).2 rfl).1⟩⟩
